import Mathlib

/-!
Verification of the caching and analytics-derivation layer of the
ai-content-generator backend.

The development shallowly embeds the relevant JavaScript source
(`src/backend/src/services/cache.js` and the analytics service in
`src/backend/src/services/pdf.js`) into Lean:

* JavaScript numbers are modelled as exact rationals (`ℚ`); `Math.round`
  becomes `jsRound` (round half towards positive infinity, which agrees with
  `Math.round` on every finite value).
* The `NaN` produced by a `0 / 0` average is modelled by `Option ℚ` with
  `none` playing the role of `NaN` (comparisons against `none` are false,
  rounding `none` gives `none`), used only where the source can divide by 0.
* The Redis client is modelled as an abstract backend whose operations may
  fail (`Except`); the in-memory fallback is an association-list store.
* Regex-based quality-factor detection is implemented directly over the
  character list of the text.
-/

namespace AIContentGen

/-- JavaScript `Math.round`: round half towards positive infinity. -/
def jsRound (q : ℚ) : ℤ := ⌊q + 1/2⌋

/-- JavaScript `Math.round(x * 100) / 100`, the two-decimal rounding used for
trend percentages. -/
def round2 (q : ℚ) : ℚ := (jsRound (q * 100) : ℚ) / 100

/-! ## Per-item engagement scoring (`calculateEngagementMetrics`) -/

/-- JavaScript regex word character `\w`, i.e. `[A-Za-z0-9_]`. -/
def isWordChar (c : Char) : Bool := c.isAlphanum || c = '_'

/-- Detection of the regex `/#\w+/`: a `#` immediately followed by a word
character somewhere in the text. -/
def hasHashtagChars : List Char → Bool
  | [] => false
  | [_] => false
  | c :: d :: rest => (c = '#' && isWordChar d) || hasHashtagChars (d :: rest)

/-- Match one call-to-action word at the head of the list, requiring a
non-word character (or end of input) right after it (the trailing `\b`). -/
def matchWordAt : List Char → List Char → Bool
  | [], [] => true
  | [], d :: _ => !(isWordChar d)
  | _ :: _, [] => false
  | c :: w, d :: l => c = d && matchWordAt w l

/-- The call-to-action alternatives of
`/\b(click|visit|check|learn|discover|try|get|download|sign up|subscribe)\b/gi`,
as lowercase character lists. -/
def ctaWords : List (List Char) :=
  ["click", "visit", "check", "learn", "discover", "try", "get",
   "download", "sign up", "subscribe"].map String.data

/-- Scan the (lowercased) text for a call-to-action word with a word
boundary on both sides; `prevWord` records whether the previous character
was a word character (the leading `\b`). -/
def hasCTAAux : List Char → Bool → Bool
  | [], _ => false
  | c :: rest, prevWord =>
      (!prevWord && ctaWords.any (fun w => matchWordAt w (c :: rest)))
        || hasCTAAux rest (isWordChar c)

/-- Detection of the case-insensitive call-to-action regex. -/
def hasCTAStr (s : String) : Bool := hasCTAAux (s.data.map Char.toLower) false

/-- Membership in the emoji character class
`[\u{1F600}-\u{1F64F}|\u{1F300}-\u{1F5FF}|\u{1F680}-\u{1F6FF}|\u{1F1E0}-\u{1F1FF}]`.
The `|` separators sit inside the class, so the literal `|` character is a
member as well. -/
def isEmojiChar (c : Char) : Bool :=
  let n := c.toNat
  (0x1F600 ≤ n && n ≤ 0x1F64F) || (0x1F300 ≤ n && n ≤ 0x1F5FF)
    || (0x1F680 ≤ n && n ≤ 0x1F6FF) || (0x1F1E0 ≤ n && n ≤ 0x1F1FF)
    || c = '|'

/-- The fields of a stored content row that `calculateEngagementMetrics`
reads. `platformTarget` is `none` when the column is null. -/
structure ContentItem where
  contentType : String
  platformTarget : Option String
  wordCount : ℤ
  characterCount : ℤ
  generatedText : String
deriving Repr, DecidableEq

/-- The `switch (platformTarget)` of the source: reach multiplier and
engagement rate per platform, with the default branch leaving the base
2% engagement rate in place. -/
def platformAdjust : Option String → ℚ × ℚ
  | some "Twitter" => (12/10, 35/1000)
  | some "LinkedIn" => (8/10, 25/1000)
  | some "Facebook" => (15/10, 2/100)
  | some "Instagram" => (18/10, 45/1000)
  | _ => (1, 2/100)

/-- The `switch (contentType)` of the source: multipliers applied to
`baseEngagement` and to `engagementRate`. -/
def typeAdjust : String → ℚ × ℚ
  | "blog_post" => (13/10, 8/10)
  | "social_caption" => (11/10, 12/10)
  | _ => (1, 1)

/-- Quality multiplier: 1 plus the fixed bonus of each detected factor, the
emoji bonus being suppressed on LinkedIn. -/
def qualityMultiplier (hh hq hc he : Bool) (pt : Option String) : ℚ :=
  1 + (if hh then 15/100 else 0) + (if hq then 1/10 else 0)
    + (if hc then 2/10 else 0)
    + (if he ∧ pt ≠ some "LinkedIn" then 1/10 else 0)

/-- Optimal-length multiplier per content type. -/
def lengthMultiplier (ct : String) (wc cc : ℤ) : ℚ :=
  match ct with
  | "social_caption" =>
      if 50 < cc ∧ cc < 150 then 12/10
      else if 280 < cc then 7/10
      else 1
  | "blog_post" =>
      if 100 < wc ∧ wc < 300 then 11/10
      else if wc < 50 then 8/10
      else 1
  | _ => 1

/-- Result record of `calculateEngagementMetrics`. -/
structure QualityFactors where
  hasHashtags : Bool
  hasQuestions : Bool
  hasCallToAction : Bool
  hasEmojis : Bool
  optimalLength : Bool
deriving Repr, DecidableEq

/-- Derived engagement metrics, never persisted. -/
structure EngagementMetrics where
  potentialReach : ℤ
  estimatedEngagements : ℤ
  estimatedClicks : ℤ
  estimatedShares : ℤ
  engagementScore : ℤ
  qualityFactors : QualityFactors
deriving Repr, DecidableEq

/-- Hashtag detection on an item. -/
def hasHashtagsOf (item : ContentItem) : Bool := hasHashtagChars item.generatedText.data

/-- Question-mark detection on an item (regex `/\?/`). -/
def hasQuestionsOf (item : ContentItem) : Bool :=
  item.generatedText.data.any (fun c => c = '?')

/-- Call-to-action detection on an item. -/
def hasCTAOf (item : ContentItem) : Bool := hasCTAStr item.generatedText

/-- Emoji detection on an item. -/
def hasEmojisOf (item : ContentItem) : Bool := item.generatedText.data.any isEmojiChar

/-- Quality multiplier of an item, from its detected factors. -/
def qualityMultiplierOf (item : ContentItem) : ℚ :=
  qualityMultiplier (hasHashtagsOf item) (hasQuestionsOf item) (hasCTAOf item)
    (hasEmojisOf item) item.platformTarget

/-- Length multiplier of an item. -/
def lengthMultiplierOf (item : ContentItem) : ℚ :=
  lengthMultiplier item.contentType item.wordCount item.characterCount

/-- The reach product `baseEngagement * reachMultiplier * qualityMultiplier *
lengthMultiplier` before rounding. -/
def reachProduct (item : ContentItem) : ℚ :=
  (100 * (typeAdjust item.contentType).1) * (platformAdjust item.platformTarget).1
    * qualityMultiplierOf item * lengthMultiplierOf item

/-- The `potentialReach` computed by `calculateEngagementMetrics`. -/
def potentialReachOf (item : ContentItem) : ℤ := jsRound (reachProduct item)

/-- The final engagement rate: platform rate further modulated by content
type (`engagementRate *= 0.8` for blog posts, `*= 1.2` for captions). -/
def engagementRateOf (item : ContentItem) : ℚ :=
  (platformAdjust item.platformTarget).2 * (typeAdjust item.contentType).2

/-- The `estimatedEngagements` computed by `calculateEngagementMetrics`. -/
def estimatedEngagementsOf (item : ContentItem) : ℤ :=
  jsRound ((potentialReachOf item : ℚ) * engagementRateOf item)

/-- Embedding of `calculateEngagementMetrics` from the analytics service. -/
def calculateEngagementMetrics (item : ContentItem) : EngagementMetrics :=
  { potentialReach := potentialReachOf item
    estimatedEngagements := estimatedEngagementsOf item
    estimatedClicks := jsRound ((estimatedEngagementsOf item : ℚ) * (15/100))
    estimatedShares := jsRound ((estimatedEngagementsOf item : ℚ) * (8/100))
    engagementScore :=
      jsRound ((estimatedEngagementsOf item : ℚ) / (potentialReachOf item : ℚ) * 100)
    qualityFactors :=
      { hasHashtags := hasHashtagsOf item
        hasQuestions := hasQuestionsOf item
        hasCallToAction := hasCTAOf item
        hasEmojis := hasEmojisOf item
        optimalLength := decide ((1 : ℚ) < lengthMultiplierOf item) } }

/-- Scratch example item: a plain blog post for Twitter with no quality
factors detected. -/
def exBlogTwitter : ContentItem :=
  { contentType := "blog_post", platformTarget := some "Twitter",
    wordCount := 200, characterCount := 1000, generatedText := "aaa" }

/-! ## Claim-side per-item scoring

The claim describes the scoring computation in its own words; the following
definitions transcribe those words so they can be compared with the
source-derived `calculateEngagementMetrics`. The claim states the base as
"100 modulated by content type (blog_post ×1.3, social_caption ×1.1)" and
the engagement rate as coming from the platform table only. -/

/-- Claim-side base reach: 100 modulated by content type. -/
def claimBase : String → ℚ
  | "blog_post" => 130
  | "social_caption" => 110
  | _ => 100

/-- Claim-side platform multiplier (same table as the source). -/
def claimPlatformMultiplier (pt : Option String) : ℚ := (platformAdjust pt).1

/-- Claim-side engagement rate: the platform table value, with no further
modulation. -/
def claimEngagementRate (pt : Option String) : ℚ := (platformAdjust pt).2

/-- Metrics exactly as the claim words them: `estimatedEngagements =
round(potentialReach * engagementRate)` with the platform-table rate. -/
def claimEngagementMetrics (item : ContentItem) : EngagementMetrics :=
  let pR : ℤ := jsRound (claimBase item.contentType
    * claimPlatformMultiplier item.platformTarget
    * qualityMultiplierOf item * lengthMultiplierOf item)
  let eng : ℤ := jsRound ((pR : ℚ) * claimEngagementRate item.platformTarget)
  { potentialReach := pR
    estimatedEngagements := eng
    estimatedClicks := jsRound ((eng : ℚ) * (15/100))
    estimatedShares := jsRound ((eng : ℚ) * (8/100))
    engagementScore := jsRound ((eng : ℚ) / (pR : ℚ) * 100)
    qualityFactors :=
      { hasHashtags := hasHashtagsOf item
        hasQuestions := hasQuestionsOf item
        hasCallToAction := hasCTAOf item
        hasEmojis := hasEmojisOf item
        optimalLength := decide ((1 : ℚ) < lengthMultiplierOf item) } }

/-- Content-type modulation of the engagement rate that the source applies
and the claim omits: blog_post ×0.8, social_caption ×1.2. -/
def claimRateTypeFactor : String → ℚ
  | "blog_post" => 8/10
  | "social_caption" => 12/10
  | _ => 1

/-- Metrics as the amended claim words them: identical to
`claimEngagementMetrics` except that the engagement rate is additionally
modulated by content type before `estimatedEngagements` is computed. -/
def amendedEngagementMetrics (item : ContentItem) : EngagementMetrics :=
  let pR : ℤ := jsRound (claimBase item.contentType
    * claimPlatformMultiplier item.platformTarget
    * qualityMultiplierOf item * lengthMultiplierOf item)
  let eng : ℤ := jsRound ((pR : ℚ)
    * (claimEngagementRate item.platformTarget * claimRateTypeFactor item.contentType))
  { potentialReach := pR
    estimatedEngagements := eng
    estimatedClicks := jsRound ((eng : ℚ) * (15/100))
    estimatedShares := jsRound ((eng : ℚ) * (8/100))
    engagementScore := jsRound ((eng : ℚ) / (pR : ℚ) * 100)
    qualityFactors :=
      { hasHashtags := hasHashtagsOf item
        hasQuestions := hasQuestionsOf item
        hasCallToAction := hasCTAOf item
        hasEmojis := hasEmojisOf item
        optimalLength := decide ((1 : ℚ) < lengthMultiplierOf item) } }

/-! ## Trend percentages of `getAdvancedAnalytics`

The database queries are external; the embedding takes the current-range
and previous-range totals they return and models the trend arithmetic the
source performs on them. -/

/-- The raw trend expression of the source:
`previousTotal > 0 ? ((current - previous) / previous) * 100 : 0`. -/
def trendRaw (cur prev : ℚ) : ℚ :=
  if 0 < prev then (cur - prev) / prev * 100 else 0

/-- The `trends` field assembled by `getAdvancedAnalytics`:
`Math.round(trend * 100) / 100` applied to content trend and reach trend. -/
def analyticsTrends (currentTotal previousTotal currentReach previousReach : ℚ) :
    ℚ × ℚ :=
  (round2 (trendRaw currentTotal previousTotal),
   round2 (trendRaw currentReach previousReach))

/-- Trend percentage as the claim words it: 0 when previous and current are
both 0, 100 when previous is 0 and current is positive, otherwise the
rounded relative change. -/
def claimTrend (cur prev : ℚ) : ℚ :=
  if prev = 0 ∧ cur = 0 then 0
  else if prev = 0 ∧ 0 < cur then 100
  else round2 ((cur - prev) / prev * 100)

/-- Trend percentage as the amended claim words it: 0 whenever the previous
total is 0 (also when current is positive), otherwise the rounded relative
change. -/
def amendedTrend (cur prev : ℚ) : ℚ :=
  if prev = 0 then 0 else round2 ((cur - prev) / prev * 100)

/-! ## Performance scores (`getContentPerformanceScores` and helpers) -/

/-- A stored row with the score fields `getContentPerformanceScores`
attaches to it. -/
structure PerfRow where
  item : ContentItem
  performanceScore : ℤ
  estimatedEngagements : ℤ
  estimatedClicks : ℤ
  estimatedShares : ℤ
  qualityFactors : QualityFactors
deriving Repr, DecidableEq

/-- Attach the computed metrics to a row (`scoredContent` map step). -/
def scoreRow (it : ContentItem) : PerfRow :=
  { item := it
    performanceScore := (calculateEngagementMetrics it).engagementScore
    estimatedEngagements := (calculateEngagementMetrics it).estimatedEngagements
    estimatedClicks := (calculateEngagementMetrics it).estimatedClicks
    estimatedShares := (calculateEngagementMetrics it).estimatedShares
    qualityFactors := (calculateEngagementMetrics it).qualityFactors }

/-- The `scoredContent` list. -/
def scoreRows (items : List ContentItem) : List PerfRow := items.map scoreRow

/-- Accumulate one score into the per-key `{ total, count }` table, keeping
the JavaScript object's key-insertion order. -/
def addScore (acc : List (String × ℤ × ℕ)) (key : String) (sc : ℤ) :
    List (String × ℤ × ℕ) :=
  match acc with
  | [] => [(key, sc, 1)]
  | (k0, tot, cnt) :: rest =>
      if k0 = key then (k0, tot + sc, cnt + 1) :: rest
      else (k0, tot, cnt) :: addScore rest key sc

/-- The `typeScores` table of `getBestPerformingType`. -/
def typeScores (rows : List PerfRow) : List (String × ℤ × ℕ) :=
  rows.foldl (fun acc r => addScore acc r.item.contentType r.performanceScore) []

/-- The `platformScores` table of `getBestPerformingPlatform`; rows without
a platform are skipped. -/
def platformScores (rows : List PerfRow) : List (String × ℤ × ℕ) :=
  rows.foldl
    (fun acc r =>
      match r.item.platformTarget with
      | none => acc
      | some p => addScore acc p r.performanceScore) []

/-- Mean score of one group. -/
def groupAvg (g : String × ℤ × ℕ) : ℚ := (g.2.1 : ℚ) / (g.2.2 : ℚ)

/-- One step of the selection loop over `Object.entries`: replace the best
whenever a strictly larger group average is seen. -/
def bestStep (best : Option String × ℚ) (g : String × ℤ × ℕ) : Option String × ℚ :=
  if best.2 < groupAvg g then (some g.1, groupAvg g) else best

/-- The selection loop over `Object.entries`, started from `(null, 0)`. -/
def bestOf (gs : List (String × ℤ × ℕ)) : Option String × ℚ :=
  gs.foldl bestStep (none, 0)

/-- Embedding of `getBestPerformingType`: the winning content type (null
when none beat the initial 0 average) and the rounded best average. -/
def getBestPerformingType (rows : List PerfRow) : Option String × ℤ :=
  ((bestOf (typeScores rows)).1, jsRound (bestOf (typeScores rows)).2)

/-- Embedding of `getBestPerformingPlatform`. -/
def getBestPerformingPlatform (rows : List PerfRow) : Option String × ℤ :=
  ((bestOf (platformScores rows)).1, jsRound (bestOf (platformScores rows)).2)

/-- The average score `scoredContent.reduce(..)/scoredContent.length`; the
`0 / 0` this produces on an empty list is JavaScript `NaN`, modelled as
`none`. -/
def averagePerformanceScore (rows : List PerfRow) : Option ℚ :=
  match rows with
  | [] => none
  | _ =>
      some ((rows.foldl (fun s r => s + r.performanceScore) 0 : ℤ)
        / (rows.length : ℚ))

/-- JavaScript `score > avg + 10`: false when the average is `NaN`. -/
def scoreAboveAvg (avg : Option ℚ) (sc : ℤ) : Bool :=
  match avg with
  | none => false
  | some a => decide (a + 10 < (sc : ℚ))

/-- JavaScript `score < avg - 10`: false when the average is `NaN`. -/
def scoreBelowAvg (avg : Option ℚ) (sc : ℤ) : Bool :=
  match avg with
  | none => false
  | some a => decide ((sc : ℚ) < a - 10)

/-- The `insights` record; `averageScore` is `Option` because
`Math.round(NaN)` is `NaN`. -/
structure PerfInsights where
  averageScore : Option ℤ
  topPerformersCount : ℕ
  needsImprovementCount : ℕ
  bestPerformingType : Option String × ℤ
  bestPerformingPlatform : Option String × ℤ
deriving Repr, DecidableEq

/-- Result of `getContentPerformanceScores`. -/
structure PerfResult where
  contentScores : List PerfRow
  insights : PerfInsights
deriving Repr, DecidableEq

/-- Embedding of `getContentPerformanceScores` on the rows the database
query returns (the query itself is external). -/
def getContentPerformanceScores (items : List ContentItem) : PerfResult :=
  let scored := scoreRows items
  let avg := averagePerformanceScore scored
  { contentScores := scored
    insights :=
      { averageScore := avg.map jsRound
        topPerformersCount :=
          (scored.filter (fun r => scoreAboveAvg avg r.performanceScore)).length
        needsImprovementCount :=
          (scored.filter (fun r => scoreBelowAvg avg r.performanceScore)).length
        bestPerformingType := getBestPerformingType scored
        bestPerformingPlatform := getBestPerformingPlatform scored } }

/-! ## Cache service

JSON-serializable values; `JSON.stringify` followed by `JSON.parse` is the
identity on this type, so serialization is not modelled separately. -/

inductive Json where
  | null
  | bool (b : Bool)
  | num (q : ℚ)
  | str (s : String)
  | arr (l : List Json)
  | obj (l : List (String × Json))

/-- JavaScript truthiness of a stored value (`NaN` cannot occur here since
`Json.num` is an exact rational). -/
def Json.truthy : Json → Bool
  | .null => false
  | .bool b => b
  | .num q => decide (q ≠ 0)
  | .str s => decide (s ≠ "")
  | .arr _ => true
  | .obj _ => true

/-- JavaScript `Map.get`. -/
def mapGet {α : Type} : List (String × α) → String → Option α
  | [], _ => none
  | (k0, v) :: rest, k => if k0 = k then some v else mapGet rest k

/-- JavaScript `Map.set`: replace the entry in place or append it. -/
def mapSet {α : Type} : List (String × α) → String → α → List (String × α)
  | [], k, v => [(k, v)]
  | (k0, v0) :: rest, k, v =>
      if k0 = k then (k0, v) :: rest else (k0, v0) :: mapSet rest k v

/-- JavaScript `Map.delete`. -/
def mapDelete {α : Type} (m : List (String × α)) (k : String) : List (String × α) :=
  m.filter (fun p => !(p.1 = k))

/-- The in-memory fallback: `this.memoryCache` and `this.cacheTimestamps`.
Timestamps are `Date.now()` milliseconds. -/
structure MemStore where
  memoryCache : List (String × Json)
  cacheTimestamps : List (String × ℤ)

/-- The empty fallback store created by `initializeInMemoryCache`. -/
def MemStore.empty : MemStore := { memoryCache := [], cacheTimestamps := [] }

/-- Fallback branch of `CacheService.set`: store the value and the current
time; the `ttlSeconds` argument of `set` is not recorded. -/
def memSet (m : MemStore) (k : String) (v : Json) (now : ℤ) : MemStore :=
  { memoryCache := mapSet m.memoryCache k v
    cacheTimestamps := mapSet m.cacheTimestamps k now }

/-- Fallback branch of `CacheService.get`: serve the value while its age is
under the fixed 3600000 ms ceiling, evicting it once older; a falsy stored
value or falsy timestamp reads as a miss. -/
def memGet (m : MemStore) (k : String) (now : ℤ) : Option Json × MemStore :=
  match mapGet m.memoryCache k with
  | none => (none, m)
  | some v =>
      if v.truthy then
        match mapGet m.cacheTimestamps k with
        | none => (none, m)
        | some ts =>
            if ts ≠ 0 then
              if now - ts < 3600000 then (some v, m)
              else
                (none,
                  { memoryCache := mapDelete m.memoryCache k
                    cacheTimestamps := mapDelete m.cacheTimestamps k })
            else (none, m)
      else (none, m)

/-- Fallback branch of `CacheService.del`. -/
def memDel (m : MemStore) (k : String) : MemStore :=
  { memoryCache := mapDelete m.memoryCache k
    cacheTimestamps := mapDelete m.cacheTimestamps k }

/-- Fallback branch of `CacheService.clear`: `memoryCache.clear()` and
`cacheTimestamps.clear()` — the pattern argument is not consulted. -/
def memClear (_ : MemStore) : MemStore := MemStore.empty

/-! ### Connection lifecycle -/

/-- Connection fields of the service: `this.client` being non-null,
`this.isConnected`, and `this.retryAttempts` (with `maxRetries = 3`). -/
structure ConnState where
  hasClient : Bool
  isConnected : Bool
  retryAttempts : ℕ
deriving Repr, DecidableEq

/-- Events the Redis client emits to the handlers installed in
`connect()`. -/
inductive RedisEvent where
  | err
  | connected
  | ready
  | ended
deriving Repr, DecidableEq

/-- The four event handlers of `connect()`. On `error`: increment the retry
counter while it is below `maxRetries`, drop `isConnected`, and null the
client once the counter has reached `maxRetries`. -/
def onEvent (s : ConnState) : RedisEvent → ConnState
  | .err =>
      let r := if s.retryAttempts < 3 then s.retryAttempts + 1 else s.retryAttempts
      { hasClient := if 3 ≤ r then false else s.hasClient
        isConnected := false
        retryAttempts := r }
  | .connected => { s with isConnected := true, retryAttempts := 0 }
  | .ready => { s with isConnected := true }
  | .ended => { s with isConnected := false }

/-- Fold a sequence of client events over the connection state. -/
def runEvents (s : ConnState) (evts : List RedisEvent) : ConnState :=
  evts.foldl onEvent s

/-- The guard `this.isConnected && this.client` of every cache operation. -/
def usesNetworkedBackend (c : ConnState) : Bool := c.isConnected && c.hasClient

/-! ### Gateway operations -/

/-- The networked Redis client as the operations see it: each call either
returns or raises (`Except.error`). -/
structure RedisClient where
  rget : String → Except String (Option Json)
  rsetEx : String → ℤ → Json → Except String Unit
  rdel : List String → Except String Unit
  rkeys : String → Except String (List String)

/-- Whole-service state: connection fields plus the fallback store, which
is `none` until `initializeInMemoryCache` has run. -/
structure SvcState where
  conn : ConnState
  mem : Option MemStore

/-- Body of the `try` block of `CacheService.get`. -/
def rawGet (cl : RedisClient) (s : SvcState) (k : String) (now : ℤ) :
    Except String (Option Json × SvcState) :=
  if usesNetworkedBackend s.conn then
    match cl.rget k with
    | .ok v => .ok (v, s)
    | .error e => .error e
  else
    match s.mem with
    | none => .ok (none, s)
    | some m =>
        let r := memGet m k now
        .ok (r.1, { s with mem := some r.2 })

/-- `CacheService.get` with its `catch`: a raised error becomes a `null`
result and the state is left as it was. -/
def svcGet (cl : RedisClient) (s : SvcState) (k : String) (now : ℤ) :
    Option Json × SvcState :=
  match rawGet cl s k now with
  | .ok r => r
  | .error _ => (none, s)

/-- Body of the `try` block of `CacheService.set`. -/
def rawSet (cl : RedisClient) (s : SvcState) (k : String) (v : Json)
    (ttlSeconds : ℤ) (now : ℤ) : Except String SvcState :=
  if usesNetworkedBackend s.conn then
    match cl.rsetEx k ttlSeconds v with
    | .ok _ => .ok s
    | .error e => .error e
  else
    match s.mem with
    | none => .ok s
    | some m => .ok { s with mem := some (memSet m k v now) }

/-- `CacheService.set` with its `catch`. -/
def svcSet (cl : RedisClient) (s : SvcState) (k : String) (v : Json)
    (ttlSeconds : ℤ) (now : ℤ) : SvcState :=
  match rawSet cl s k v ttlSeconds now with
  | .ok s2 => s2
  | .error _ => s

/-- Body of the `try` block of `CacheService.del`. -/
def rawDel (cl : RedisClient) (s : SvcState) (k : String) :
    Except String SvcState :=
  if usesNetworkedBackend s.conn then
    match cl.rdel [k] with
    | .ok _ => .ok s
    | .error e => .error e
  else
    match s.mem with
    | none => .ok s
    | some m => .ok { s with mem := some (memDel m k) }

/-- `CacheService.del` with its `catch`. -/
def svcDel (cl : RedisClient) (s : SvcState) (k : String) : SvcState :=
  match rawDel cl s k with
  | .ok s2 => s2
  | .error _ => s

/-- Body of the `try` block of `CacheService.clear`: on the networked path
fetch the keys matching the pattern and delete them; on the fallback path
clear both maps, ignoring the pattern. -/
def rawClear (cl : RedisClient) (s : SvcState) (pat : String) :
    Except String SvcState :=
  if usesNetworkedBackend s.conn then
    match cl.rkeys pat with
    | .error e => .error e
    | .ok keys =>
        if keys.length > 0 then
          match cl.rdel keys with
          | .ok _ => .ok s
          | .error e => .error e
        else .ok s
  else
    match s.mem with
    | none => .ok s
    | some m => .ok { s with mem := some (memClear m) }

/-- `CacheService.clear` with its `catch`. -/
def svcClear (cl : RedisClient) (s : SvcState) (pat : String) : SvcState :=
  match rawClear cl s pat with
  | .ok s2 => s2
  | .error _ => s

/-! ### Key derivation and the ContentCache layer -/

/-- The `generateKey(prefix, params)` shape: namespace, a colon, then the
md5 hex digest of the JSON serialization of the params. The serialization
and digest are abstracted into the `hash` argument applied to an opaque
params string; every concrete key therefore has the form `nsp ++ ":" ++
digest` with the digest independent of this model. -/
def generateKey (hash : String → String) (nsp params : String) : String :=
  nsp ++ ":" ++ hash params

/-- `ContentCache.getCachedAnalytics` (params string stands for the
serialized `{userId, startDate, endDate}` object). -/
def getCachedAnalytics (hash : String → String) (cl : RedisClient) (s : SvcState)
    (params : String) (now : ℤ) : Option Json × SvcState :=
  svcGet cl s (generateKey hash "analytics" params) now

/-- `ContentCache.setCachedAnalytics` with its default 1800 s TTL. -/
def setCachedAnalytics (hash : String → String) (cl : RedisClient) (s : SvcState)
    (params : String) (v : Json) (now : ℤ) : SvcState :=
  svcSet cl s (generateKey hash "analytics" params) v 1800 now

/-- `ContentCache.getCachedContent` (params string stands for the
serialized `{topic, keyword, contentType, platformTarget}` object). -/
def getCachedContent (hash : String → String) (cl : RedisClient) (s : SvcState)
    (params : String) (now : ℤ) : Option Json × SvcState :=
  svcGet cl s (generateKey hash "content" params) now

/-- `ContentCache.setCachedContent` with its default 3600 s TTL. -/
def setCachedContent (hash : String → String) (cl : RedisClient) (s : SvcState)
    (params : String) (v : Json) (now : ℤ) : SvcState :=
  svcSet cl s (generateKey hash "content" params) v 3600 now

/-- `ContentCache.invalidateUserCache`: three pattern clears. -/
def invalidateUserCache (cl : RedisClient) (s : SvcState) (userId : ℕ) : SvcState :=
  let s1 := svcClear cl s ("stats:*" ++ toString userId ++ "*")
  let s2 := svcClear cl s1 ("analytics:*" ++ toString userId ++ "*")
  svcClear cl s2 ("performance:*" ++ toString userId ++ "*")

/-- Redis glob matching, for the `client.keys(pattern)` call: `*` matches
any (possibly empty) character sequence, other characters match
themselves. -/
def globMatch : List Char → List Char → Bool
  | [], k => k.isEmpty
  | c :: p, k =>
      if c = '*' then
        globMatch p k ||
          (match k with
           | [] => false
           | _ :: k2 => globMatch (c :: p) k2)
      else
        match k with
        | [] => false
        | d :: k2 => c = d && globMatch p k2
termination_by p k => (p.length, k.length)

/-- Glob matching on strings. -/
def stringGlobMatch (p k : String) : Bool := globMatch p.data k.data

/-! ### Concrete fixtures for witnesses and counterexamples -/

/-- A Redis client whose every operation succeeds trivially; unused on the
fallback path. -/
def okClient : RedisClient :=
  { rget := fun _ => .ok none
    rsetEx := fun _ _ _ => .ok ()
    rdel := fun _ => .ok ()
    rkeys := fun _ => .ok [] }

/-- A Redis client whose every operation raises. -/
def errClient : RedisClient :=
  { rget := fun _ => .error "boom"
    rsetEx := fun _ _ _ => .error "boom"
    rdel := fun _ => .error "boom"
    rkeys := fun _ => .error "boom" }

/-- Service state after a failed `connect()`: fallback store initialized,
networked path inactive. -/
def fallbackState : SvcState :=
  { conn := { hasClient := false, isConnected := false, retryAttempts := 0 }
    mem := some MemStore.empty }

/-- Service state on the networked path. -/
def connectedState : SvcState :=
  { conn := { hasClient := true, isConnected := true, retryAttempts := 0 }
    mem := none }

/-- A scored row with a positive performance score, used to instantiate
the grouping theorem. -/
def sampleRow : PerfRow :=
  { item := exBlogTwitter
    performanceScore := 3
    estimatedEngagements := 5
    estimatedClicks := 1
    estimatedShares := 0
    qualityFactors :=
      { hasHashtags := false, hasQuestions := false, hasCallToAction := false,
        hasEmojis := false, optimalLength := true } }

/-! ## Shared helper lemmas -/

theorem metrics_potentialReach (item : ContentItem) :
    (calculateEngagementMetrics item).potentialReach = potentialReachOf item := rfl

theorem metrics_estimatedEngagements (item : ContentItem) :
    (calculateEngagementMetrics item).estimatedEngagements
      = estimatedEngagementsOf item := rfl

theorem exBlogTwitter_quality : qualityMultiplierOf exBlogTwitter = 1 := by
  rw [qualityMultiplierOf,
    show hasHashtagsOf exBlogTwitter = false from by decide,
    show hasQuestionsOf exBlogTwitter = false from by decide,
    show hasCTAOf exBlogTwitter = false from by decide,
    show hasEmojisOf exBlogTwitter = false from by decide]
  simp [qualityMultiplier]

theorem exBlogTwitter_length : lengthMultiplierOf exBlogTwitter = 11/10 := by
  simp [lengthMultiplierOf, lengthMultiplier, exBlogTwitter]

theorem exBlogTwitter_reachProduct : reachProduct exBlogTwitter = 858/5 := by
  rw [reachProduct, exBlogTwitter_quality, exBlogTwitter_length]
  norm_num [exBlogTwitter, typeAdjust, platformAdjust]

theorem exBlogTwitter_potentialReach : potentialReachOf exBlogTwitter = 172 := by
  rw [potentialReachOf, exBlogTwitter_reachProduct, jsRound]
  norm_num

theorem exBlogTwitter_engagements : estimatedEngagementsOf exBlogTwitter = 5 := by
  rw [estimatedEngagementsOf, exBlogTwitter_potentialReach,
    show engagementRateOf exBlogTwitter = 7/250 from by
      norm_num [engagementRateOf, exBlogTwitter, platformAdjust, typeAdjust],
    jsRound]
  norm_num

/-! ## C7: the computed potential reach is bounded below -/

theorem one_le_typeAdjust_fst (ct : String) : 1 ≤ (typeAdjust ct).1 := by
  unfold typeAdjust; split <;> norm_num

theorem platformAdjust_fst_lb (pt : Option String) : 4/5 ≤ (platformAdjust pt).1 := by
  unfold platformAdjust; split <;> norm_num

theorem one_le_qualityMultiplier (hh hq hc he : Bool) (pt : Option String) :
    1 ≤ qualityMultiplier hh hq hc he pt := by
  unfold qualityMultiplier
  have b1 : (0:ℚ) ≤ if hh then 15/100 else 0 := by split <;> norm_num
  have b2 : (0:ℚ) ≤ if hq then 1/10 else 0 := by split <;> norm_num
  have b3 : (0:ℚ) ≤ if hc then 2/10 else 0 := by split <;> norm_num
  have b4 : (0:ℚ) ≤ if he ∧ pt ≠ some "LinkedIn" then 1/10 else 0 := by
    split <;> norm_num
  linarith

theorem lengthMultiplier_lb (ct : String) (wc cc : ℤ) :
    7/10 ≤ lengthMultiplier ct wc cc := by
  unfold lengthMultiplier
  split
  · split_ifs <;> norm_num
  · split_ifs <;> norm_num
  · norm_num

theorem reachProduct_lb (item : ContentItem) : 56 ≤ reachProduct item := by
  have h1 := one_le_typeAdjust_fst item.contentType
  have h2 := platformAdjust_fst_lb item.platformTarget
  have h3 : 1 ≤ qualityMultiplierOf item :=
    one_le_qualityMultiplier (hasHashtagsOf item) (hasQuestionsOf item)
      (hasCTAOf item) (hasEmojisOf item) item.platformTarget
  have h4 : 7/10 ≤ lengthMultiplierOf item := lengthMultiplier_lb _ _ _
  have ha : (100:ℚ) ≤ 100 * (typeAdjust item.contentType).1 := by linarith
  have hab : (80:ℚ) ≤ 100 * (typeAdjust item.contentType).1
      * (platformAdjust item.platformTarget).1 := by
    have := mul_le_mul ha h2 (by norm_num) (by linarith)
    linarith
  have habc : (80:ℚ) ≤ 100 * (typeAdjust item.contentType).1
      * (platformAdjust item.platformTarget).1 * qualityMultiplierOf item := by
    have := mul_le_mul hab h3 (by norm_num) (by linarith)
    linarith
  have habcd : (56:ℚ) ≤ 100 * (typeAdjust item.contentType).1
      * (platformAdjust item.platformTarget).1 * qualityMultiplierOf item
      * lengthMultiplierOf item := by
    have := mul_le_mul habc h4 (by norm_num) (by linarith)
    linarith
  rw [reachProduct]
  exact habcd

/-- C7: for every content item given to the scoring function, the
`potentialReach` that `calculateEngagementMetrics` computes — and then
divides by in `engagementScore` — is at least 50, in particular never 0,
independently of any stored `potentialReachMetric`. -/
theorem potentialReach_ge_50 (item : ContentItem) :
    50 ≤ (calculateEngagementMetrics item).potentialReach
      ∧ (calculateEngagementMetrics item).potentialReach ≠ 0 := by
  have h : 56 ≤ reachProduct item := reachProduct_lb item
  have h56 : (56:ℤ) ≤ potentialReachOf item := by
    rw [potentialReachOf, jsRound]
    refine Int.le_floor.mpr ?_
    push_cast
    linarith
  rw [metrics_potentialReach]
  omega

/-! ## C6: the claimed scoring formulas versus the source -/

theorem claimBase_eq (ct : String) : claimBase ct = 100 * (typeAdjust ct).1 := by
  unfold claimBase typeAdjust
  split <;> norm_num

theorem typeAdjust_snd_eq (ct : String) :
    (typeAdjust ct).2 = claimRateTypeFactor ct := by
  unfold claimRateTypeFactor typeAdjust
  split <;> norm_num

/-- C6 counterexample: on a plain Twitter blog post the source computes
`estimatedEngagements = round(172 * 0.035 * 0.8) = 5`, while the claim's
formula `round(potentialReach * engagementRate)` with the platform-table
rate alone gives `round(172 * 0.035) = 6`. -/
theorem claim_scoring_counterexample :
    calculateEngagementMetrics exBlogTwitter
      ≠ claimEngagementMetrics exBlogTwitter := by
  intro h
  have hcode : (calculateEngagementMetrics exBlogTwitter).estimatedEngagements = 5 := by
    rw [metrics_estimatedEngagements, exBlogTwitter_engagements]
  have hclaim : (claimEngagementMetrics exBlogTwitter).estimatedEngagements = 6 := by
    show jsRound ((jsRound (claimBase exBlogTwitter.contentType
      * claimPlatformMultiplier exBlogTwitter.platformTarget
      * qualityMultiplierOf exBlogTwitter * lengthMultiplierOf exBlogTwitter) : ℚ)
      * claimEngagementRate exBlogTwitter.platformTarget) = 6
    rw [exBlogTwitter_quality, exBlogTwitter_length,
      show claimBase exBlogTwitter.contentType = 130 from by
        norm_num [claimBase, exBlogTwitter],
      show claimPlatformMultiplier exBlogTwitter.platformTarget = 12/10 from by
        norm_num [claimPlatformMultiplier, platformAdjust, exBlogTwitter],
      show claimEngagementRate exBlogTwitter.platformTarget = 35/1000 from by
        norm_num [claimEngagementRate, platformAdjust, exBlogTwitter]]
    rw [show jsRound (130 * (12/10) * 1 * (11/10)) = 172 from by
      rw [jsRound]; norm_num]
    rw [jsRound]; norm_num
  have h65 : (6:ℤ) = 5 := by rw [← hclaim, ← h, hcode]
  exact absurd h65 (by norm_num)

/-- C6 amended: `calculateEngagementMetrics` computes exactly the claimed
formulas once the engagement rate is additionally modulated by the content
type (blog_post ×0.8, social_caption ×1.2). -/
theorem calculateEngagementMetrics_eq_amended (item : ContentItem) :
    calculateEngagementMetrics item = amendedEngagementMetrics item := by
  unfold calculateEngagementMetrics amendedEngagementMetrics
  unfold estimatedEngagementsOf potentialReachOf reachProduct engagementRateOf
  unfold claimPlatformMultiplier claimEngagementRate
  rw [claimBase_eq, typeAdjust_snd_eq]

/-! ## C3: trend percentage at a zero previous total -/

theorem round2_zero : round2 0 = 0 := by
  rw [round2, jsRound]; norm_num

/-- C3 counterexample: with previous total 0 and current total 5 the source
computes a content trend of 0, not the claimed 100. -/
theorem trend_prev_zero_counterexample :
    (analyticsTrends 5 0 0 0).1 ≠ claimTrend 5 0 := by
  have h1 : (analyticsTrends 5 0 0 0).1 = 0 := by
    show round2 (trendRaw 5 0) = 0
    rw [trendRaw, if_neg (by norm_num), round2_zero]
  have h2 : claimTrend 5 0 = 100 := by
    rw [claimTrend, if_neg (by norm_num), if_pos (by norm_num)]
  rw [h1, h2]; norm_num

theorem round2_trendRaw_eq_amended (cur prev : ℚ) (h : 0 ≤ prev) :
    round2 (trendRaw cur prev) = amendedTrend cur prev := by
  rcases h.lt_or_eq with hlt | heq
  · rw [trendRaw, if_pos hlt, amendedTrend, if_neg (ne_of_gt hlt)]
  · rw [trendRaw, amendedTrend, if_neg (by rw [← heq]; norm_num),
      if_pos heq.symm, round2_zero]

/-- C3 amended: for nonnegative previous totals, `getAdvancedAnalytics`
computes each trend percentage as 0 whenever the previous total is 0 (also
when the current total is positive) and otherwise as the relative change
rounded to two decimals. -/
theorem analyticsTrends_eq_amended (curT prevT curR prevR : ℚ)
    (hT : 0 ≤ prevT) (hR : 0 ≤ prevR) :
    analyticsTrends curT prevT curR prevR
      = (amendedTrend curT prevT, amendedTrend curR prevR) := by
  unfold analyticsTrends
  rw [round2_trendRaw_eq_amended curT prevT hT,
    round2_trendRaw_eq_amended curR prevR hR]

/-- C3 amended witness: previous total 10 and current 15 give a 50% trend
on both components at concrete inputs. -/
theorem analyticsTrends_eq_amended_witness :
    analyticsTrends 15 10 20 10 = (amendedTrend 15 10, amendedTrend 20 10) :=
  analyticsTrends_eq_amended 15 10 20 10 (by norm_num) (by norm_num)

/-! ## C9: best-performing group selection -/

theorem engagementRate_lb (item : ContentItem) : 2/125 ≤ engagementRateOf item := by
  unfold engagementRateOf
  have h1 : 1/50 ≤ (platformAdjust item.platformTarget).2 := by
    unfold platformAdjust; split <;> norm_num
  have h2 : 4/5 ≤ (typeAdjust item.contentType).2 := by
    unfold typeAdjust; split <;> norm_num
  have := mul_le_mul h1 h2 (by norm_num) (by linarith)
  linarith

/-- Every score the per-item scorer produces is at least 1, so the
positivity hypothesis of the grouping theorem holds for rows built by
`scoreRow`. -/
theorem one_le_engagementScore (item : ContentItem) :
    1 ≤ (calculateEngagementMetrics item).engagementScore := by
  have hrp : (56:ℚ) ≤ reachProduct item := reachProduct_lb item
  have hpR : (56:ℤ) ≤ potentialReachOf item := by
    rw [potentialReachOf, jsRound]
    exact Int.le_floor.mpr (by push_cast; linarith)
  have hpRq : (56:ℚ) ≤ (potentialReachOf item : ℚ) := by exact_mod_cast hpR
  have hpRpos : (0:ℚ) < (potentialReachOf item : ℚ) := by linarith
  have hrate := engagementRate_lb item
  have heng : ((potentialReachOf item : ℚ) * engagementRateOf item) - 1/2
      < (estimatedEngagementsOf item : ℚ) := by
    rw [estimatedEngagementsOf, jsRound]
    have h := Int.sub_one_lt_floor
      ((potentialReachOf item : ℚ) * engagementRateOf item + 1/2)
    linarith
  have hprod : (potentialReachOf item : ℚ) * (2/125)
      ≤ (potentialReachOf item : ℚ) * engagementRateOf item :=
    mul_le_mul_of_nonneg_left hrate (by linarith)
  have key : (potentialReachOf item : ℚ) / 2
      ≤ (estimatedEngagementsOf item : ℚ) * 100 := by nlinarith
  have hdiv : (1/2 : ℚ)
      ≤ (estimatedEngagementsOf item : ℚ) * 100 / (potentialReachOf item : ℚ) := by
    rw [le_div_iff₀ hpRpos]
    linarith
  show 1 ≤ jsRound ((estimatedEngagementsOf item : ℚ)
    / (potentialReachOf item : ℚ) * 100)
  rw [jsRound]
  refine Int.le_floor.mpr ?_
  rw [div_mul_eq_mul_div]
  push_cast
  linarith

theorem bestStep_snd_le (best : Option String × ℚ) (g : String × ℤ × ℕ) :
    best.2 ≤ (bestStep best g).2 ∧ groupAvg g ≤ (bestStep best g).2 := by
  unfold bestStep
  split_ifs with h
  · exact ⟨le_of_lt h, le_refl _⟩
  · exact ⟨le_refl _, le_of_not_lt h⟩

theorem foldl_bestStep_snd (gs : List (String × ℤ × ℕ)) :
    ∀ acc : Option String × ℚ,
      acc.2 ≤ (gs.foldl bestStep acc).2
      ∧ ∀ g ∈ gs, groupAvg g ≤ (gs.foldl bestStep acc).2 := by
  induction gs with
  | nil => exact fun acc => ⟨le_refl _, by simp⟩
  | cons g rest ih =>
      intro acc
      simp only [List.foldl_cons]
      have hstep := bestStep_snd_le acc g
      have hrest := ih (bestStep acc g)
      refine ⟨le_trans hstep.1 hrest.1, ?_⟩
      intro g2 hg2
      rcases List.mem_cons.mp hg2 with h | h
      · rw [h]; exact le_trans hstep.2 hrest.1
      · exact hrest.2 g2 h

theorem foldl_bestStep_result (gs : List (String × ℤ × ℕ)) :
    ∀ acc, gs.foldl bestStep acc = acc
      ∨ ∃ g ∈ gs, gs.foldl bestStep acc = (some g.1, groupAvg g) := by
  induction gs with
  | nil => exact fun acc => .inl rfl
  | cons g rest ih =>
      intro acc
      simp only [List.foldl_cons]
      rcases ih (bestStep acc g) with h | ⟨g2, hg2, hEq⟩
      · by_cases hc : acc.2 < groupAvg g
        · refine .inr ⟨g, List.mem_cons_self g rest, ?_⟩
          rw [h]; unfold bestStep; rw [if_pos hc]
        · refine .inl ?_
          rw [h]; unfold bestStep; rw [if_neg hc]
      · exact .inr ⟨g2, List.mem_cons_of_mem g hg2, hEq⟩

theorem addScore_pos (acc : List (String × ℤ × ℕ)) (k : String) (sc : ℤ)
    (hacc : ∀ g ∈ acc, 0 < g.2.1 ∧ 0 < g.2.2) (hsc : 0 < sc) :
    ∀ g ∈ addScore acc k sc, 0 < g.2.1 ∧ 0 < g.2.2 := by
  induction acc with
  | nil =>
      intro g hg
      simp only [addScore, List.mem_singleton] at hg
      rw [hg]
      exact ⟨hsc, Nat.one_pos⟩
  | cons a rest ih =>
      obtain ⟨k0, tot, cnt⟩ := a
      intro g hg
      have hhead := hacc (k0, tot, cnt) (List.mem_cons_self _ _)
      have htail : ∀ g2 ∈ rest, 0 < g2.2.1 ∧ 0 < g2.2.2 :=
        fun g2 h2 => hacc g2 (List.mem_cons_of_mem _ h2)
      simp only [addScore] at hg
      split_ifs at hg with hk
      · rcases List.mem_cons.mp hg with h | h
        · rw [h]
          exact ⟨by have := hhead.1; simp only; linarith, Nat.succ_pos cnt⟩
        · exact htail g h
      · rcases List.mem_cons.mp hg with h | h
        · rw [h]; exact hhead
        · exact ih htail g h

theorem addScore_ne_nil (acc : List (String × ℤ × ℕ)) (k : String) (sc : ℤ) :
    addScore acc k sc ≠ [] := by
  cases acc with
  | nil => simp [addScore]
  | cons a rest =>
      obtain ⟨k0, tot, cnt⟩ := a
      simp only [addScore]
      split_ifs <;> simp

theorem foldl_addScore_pos_type (rows : List PerfRow) :
    ∀ acc, (∀ g ∈ acc, 0 < g.2.1 ∧ 0 < g.2.2) →
      (∀ r ∈ rows, 0 < r.performanceScore) →
      ∀ g ∈ rows.foldl
          (fun acc r => addScore acc r.item.contentType r.performanceScore) acc,
        0 < g.2.1 ∧ 0 < g.2.2 := by
  induction rows with
  | nil => intro acc hacc _ g hg; exact hacc g hg
  | cons r rest ih =>
      intro acc hacc hrows g hg
      simp only [List.foldl_cons] at hg
      exact ih (addScore acc r.item.contentType r.performanceScore)
        (addScore_pos acc _ _ hacc (hrows r (List.mem_cons_self _ _)))
        (fun r2 h2 => hrows r2 (List.mem_cons_of_mem _ h2)) g hg

theorem foldl_addScore_pos_platform (rows : List PerfRow) :
    ∀ acc, (∀ g ∈ acc, 0 < g.2.1 ∧ 0 < g.2.2) →
      (∀ r ∈ rows, 0 < r.performanceScore) →
      ∀ g ∈ rows.foldl
          (fun acc r =>
            match r.item.platformTarget with
            | none => acc
            | some p => addScore acc p r.performanceScore) acc,
        0 < g.2.1 ∧ 0 < g.2.2 := by
  induction rows with
  | nil => intro acc hacc _ g hg; exact hacc g hg
  | cons r rest ih =>
      intro acc hacc hrows g hg
      simp only [List.foldl_cons] at hg
      have htail : ∀ r2 ∈ rest, 0 < r2.performanceScore :=
        fun r2 h2 => hrows r2 (List.mem_cons_of_mem _ h2)
      cases hpt : r.item.platformTarget with
      | none => rw [hpt] at hg; exact ih acc hacc htail g hg
      | some p =>
          rw [hpt] at hg
          exact ih (addScore acc p r.performanceScore)
            (addScore_pos acc _ _ hacc (hrows r (List.mem_cons_self _ _)))
            htail g hg

theorem foldl_addScore_ne_nil_type (rows : List PerfRow) :
    ∀ acc : List (String × ℤ × ℕ), acc ≠ [] →
      rows.foldl
        (fun acc r => addScore acc r.item.contentType r.performanceScore) acc
        ≠ [] := by
  induction rows with
  | nil => intro acc h; exact h
  | cons r rest ih =>
      intro acc _
      simp only [List.foldl_cons]
      exact ih _ (addScore_ne_nil acc _ _)

theorem typeScores_ne_nil (rows : List PerfRow) (h : rows ≠ []) :
    typeScores rows ≠ [] := by
  cases rows with
  | nil => exact absurd rfl h
  | cons r rest =>
      rw [typeScores]
      simp only [List.foldl_cons]
      exact foldl_addScore_ne_nil_type rest _ (addScore_ne_nil [] _ _)

theorem foldl_platform_ne_nil (rows : List PerfRow) :
    ∀ acc : List (String × ℤ × ℕ),
      (acc ≠ [] ∨ ∃ r ∈ rows, r.item.platformTarget ≠ none) →
      rows.foldl
        (fun acc r =>
          match r.item.platformTarget with
          | none => acc
          | some p => addScore acc p r.performanceScore) acc
        ≠ [] := by
  induction rows with
  | nil =>
      intro acc h
      rcases h with h | ⟨r, hr, _⟩
      · exact h
      · exact absurd hr (List.not_mem_nil r)
  | cons r rest ih =>
      intro acc h
      simp only [List.foldl_cons]
      cases hpt : r.item.platformTarget with
      | some p =>
          exact ih _ (.inl (addScore_ne_nil acc _ _))
      | none =>
          refine ih acc ?_
          rcases h with h | ⟨r0, hr0, hneq⟩
          · exact .inl h
          · rcases List.mem_cons.mp hr0 with h0 | h0
            · rw [h0] at hneq; exact absurd hpt hneq
            · exact .inr ⟨r0, h0, hneq⟩

theorem foldl_platform_all_none (rows : List PerfRow)
    (hall : ∀ r ∈ rows, r.item.platformTarget = none) :
    ∀ acc : List (String × ℤ × ℕ),
      rows.foldl
        (fun acc r =>
          match r.item.platformTarget with
          | none => acc
          | some p => addScore acc p r.performanceScore) acc
        = acc := by
  induction rows with
  | nil => intro acc; rfl
  | cons r rest ih =>
      intro acc
      simp only [List.foldl_cons]
      rw [hall r (List.mem_cons_self _ _)]
      exact ih (fun r2 h2 => hall r2 (List.mem_cons_of_mem _ h2)) acc

theorem groupAvg_pos (g : String × ℤ × ℕ) (h : 0 < g.2.1 ∧ 0 < g.2.2) :
    0 < groupAvg g := by
  unfold groupAvg
  exact div_pos (by exact_mod_cast h.1) (by exact_mod_cast h.2)

theorem bestOf_max (gs : List (String × ℤ × ℕ)) (hne : gs ≠ [])
    (hpos : ∀ g ∈ gs, 0 < groupAvg g) :
    ∃ g ∈ gs, (bestOf gs).1 = some g.1
      ∧ ∀ g2 ∈ gs, groupAvg g2 ≤ groupAvg g := by
  obtain ⟨_, hall⟩ := foldl_bestStep_snd gs (none, 0)
  rcases foldl_bestStep_result gs (none, 0) with h | ⟨g, hg, hEq⟩
  · exfalso
    obtain ⟨g0, hg0⟩ := List.exists_mem_of_ne_nil gs hne
    have h1 := hall g0 hg0
    rw [h] at h1
    have h2 := hpos g0 hg0
    simp only at h1
    linarith
  · refine ⟨g, hg, ?_, ?_⟩
    · rw [bestOf, hEq]
    · intro g2 hg2
      have := hall g2 hg2
      rw [hEq] at this
      exact this

/-- C9: with positively scored rows, `getBestPerformingType` returns a
content type whose group mean is maximal (null exactly on an empty list),
and `getBestPerformingPlatform` does the same over the rows that carry a
platform (null when no row does). -/
theorem bestPerforming_max_mean (rows : List PerfRow)
    (hpos : ∀ r ∈ rows, 0 < r.performanceScore) :
    ((rows = [] → (getBestPerformingType rows).1 = none)
      ∧ (rows ≠ [] → ∃ g ∈ typeScores rows,
          (getBestPerformingType rows).1 = some g.1
            ∧ ∀ g2 ∈ typeScores rows, groupAvg g2 ≤ groupAvg g))
    ∧ (((∀ r ∈ rows, r.item.platformTarget = none) →
          (getBestPerformingPlatform rows).1 = none)
      ∧ ((∃ r ∈ rows, r.item.platformTarget ≠ none) →
          ∃ g ∈ platformScores rows,
            (getBestPerformingPlatform rows).1 = some g.1
              ∧ ∀ g2 ∈ platformScores rows, groupAvg g2 ≤ groupAvg g)) := by
  refine ⟨⟨?_, ?_⟩, ?_, ?_⟩
  · intro h; rw [h]; rfl
  · intro hne
    have hts := typeScores_ne_nil rows hne
    have hpos2 : ∀ g ∈ typeScores rows, 0 < groupAvg g := by
      intro g hg
      rw [typeScores] at hg
      exact groupAvg_pos g (foldl_addScore_pos_type rows [] (by simp) hpos g hg)
    obtain ⟨g, hg, h1, h2⟩ := bestOf_max (typeScores rows) hts hpos2
    exact ⟨g, hg, h1, h2⟩
  · intro hall
    have hempty : platformScores rows = [] := by
      rw [platformScores]
      exact foldl_platform_all_none rows hall []
    show (bestOf (platformScores rows)).1 = none
    rw [hempty]
    rfl
  · intro hex
    obtain ⟨r, hr, hneq⟩ := hex
    have hps : platformScores rows ≠ [] := by
      rw [platformScores]
      exact foldl_platform_ne_nil rows [] (.inr ⟨r, hr, hneq⟩)
    have hpos2 : ∀ g ∈ platformScores rows, 0 < groupAvg g := by
      intro g hg
      rw [platformScores] at hg
      exact groupAvg_pos g (foldl_addScore_pos_platform rows [] (by simp) hpos g hg)
    obtain ⟨g, hg, h1, h2⟩ := bestOf_max (platformScores rows) hps hpos2
    exact ⟨g, hg, h1, h2⟩

/-- C9 witness: instantiation on a single positively scored row. -/
theorem bestPerforming_max_mean_witness :
    (∀ r ∈ [sampleRow], 0 < r.performanceScore)
    ∧ ((([sampleRow] : List PerfRow) = [] →
          (getBestPerformingType [sampleRow]).1 = none)
        ∧ ([sampleRow] ≠ [] → ∃ g ∈ typeScores [sampleRow],
            (getBestPerformingType [sampleRow]).1 = some g.1
              ∧ ∀ g2 ∈ typeScores [sampleRow], groupAvg g2 ≤ groupAvg g))
      ∧ (((∀ r ∈ [sampleRow], r.item.platformTarget = none) →
            (getBestPerformingPlatform [sampleRow]).1 = none)
        ∧ ((∃ r ∈ [sampleRow], r.item.platformTarget ≠ none) →
            ∃ g ∈ platformScores [sampleRow],
              (getBestPerformingPlatform [sampleRow]).1 = some g.1
                ∧ ∀ g2 ∈ platformScores [sampleRow], groupAvg g2 ≤ groupAvg g)) := by
  have hpos : ∀ r ∈ [sampleRow], 0 < r.performanceScore := by
    intro r hr
    rw [List.mem_singleton] at hr
    rw [hr]
    norm_num [sampleRow]
  exact ⟨hpos, bestPerforming_max_mean [sampleRow] hpos⟩

/-! ## C10: performance scores on a user with no content -/

/-- C10: on an empty row set `getContentPerformanceScores` returns normally
with an empty score list, zero top-performer and needs-improvement counts,
and an `averageScore` that is the `NaN` of the `0 / 0` division (modelled
as `none`), not 0. -/
theorem performanceScores_empty_input :
    (getContentPerformanceScores []).contentScores = []
    ∧ (getContentPerformanceScores []).insights.topPerformersCount = 0
    ∧ (getContentPerformanceScores []).insights.needsImprovementCount = 0
    ∧ (getContentPerformanceScores []).insights.averageScore = none
    ∧ (getContentPerformanceScores []).insights.averageScore ≠ some 0 := by
  refine ⟨rfl, rfl, rfl, rfl, ?_⟩
  rw [show (getContentPerformanceScores []).insights.averageScore
    = none from rfl]
  simp

/-! ## C2: fallback store time-to-live -/

theorem mapGet_mapSet_self {α : Type} (m : List (String × α)) (k : String) (v : α) :
    mapGet (mapSet m k v) k = some v := by
  induction m with
  | nil => simp [mapSet, mapGet]
  | cons a rest ih =>
      obtain ⟨k0, v0⟩ := a
      simp only [mapSet]
      split_ifs with h
      · simp [mapGet, h]
      · simp [mapGet, h, ih]

theorem mapGet_mapDelete_self {α : Type} (m : List (String × α)) (k : String) :
    mapGet (mapDelete m k) k = none := by
  induction m with
  | nil => simp [mapDelete, mapGet]
  | cons a rest ih =>
      obtain ⟨k0, v0⟩ := a
      by_cases h : k0 = k
      · simpa [mapDelete, List.filter_cons, h] using ih
      · simpa [mapDelete, List.filter_cons, h, mapGet] using ih

/-- C2 counterexample: on the fallback path, `set` with a 1-second TTL
followed by a `get` 2.001 seconds later still returns the value — the
per-entry TTL is ignored rather than honoured. -/
theorem fallback_ttl_counterexample :
    (svcGet okClient (svcSet okClient fallbackState "k" (.str "v") 1 1000)
        "k" 3001).1 = some (.str "v")
    ∧ (svcGet okClient (svcSet okClient fallbackState "k" (.str "v") 1 1000)
        "k" 3001).1 ≠ none := by
  refine ⟨rfl, ?_⟩
  rw [show (svcGet okClient (svcSet okClient fallbackState "k" (.str "v") 1 1000)
    "k" 3001).1 = some (.str "v") from rfl]
  simp

/-- C2 amended: the fallback store drops the `ttlSeconds` argument of `set`
and applies only the fixed 3600000 ms ceiling on `get`: a truthy value
stored at a nonzero time is served while younger than the ceiling and is
evicted (and read as absent) once the ceiling has passed. -/
theorem fallback_ttl_fixed_ceiling (m : MemStore) (k : String) (v : Json)
    (ttl t0 t1 : ℤ) (hv : v.truthy = true) (ht0 : t0 ≠ 0) :
    (svcSet okClient ⟨⟨false, false, 0⟩, some m⟩ k v ttl t0
        = ⟨⟨false, false, 0⟩, some (memSet m k v t0)⟩)
    ∧ (memGet (memSet m k v t0) k t0).1 = some v
    ∧ (t1 - t0 < 3600000 → (memGet (memSet m k v t0) k t1).1 = some v)
    ∧ (3600000 ≤ t1 - t0 →
        (memGet (memSet m k v t0) k t1).1 = none
        ∧ mapGet ((memGet (memSet m k v t0) k t1).2).memoryCache k = none) := by
  have hmc : mapGet (memSet m k v t0).memoryCache k = some v := by
    rw [memSet]
    exact mapGet_mapSet_self _ _ _
  have hts : mapGet (memSet m k v t0).cacheTimestamps k = some t0 := by
    rw [memSet]
    exact mapGet_mapSet_self _ _ _
  refine ⟨rfl, ?_, ?_, ?_⟩
  · simp [memGet, hmc, hts, hv, ht0]
  · intro h
    simp [memGet, hmc, hts, hv, ht0, h]
  · intro h
    have h2 : ¬(t1 - t0 < 3600000) := not_lt.mpr h
    constructor
    · simp [memGet, hmc, hts, hv, ht0, h2]
    · simp [memGet, hmc, hts, hv, ht0, h2, mapGet_mapDelete_self]

/-- C2 amended witness: a truthy value set at t = 1000 ms is still served
2001 ms later (inside the one-hour ceiling). -/
theorem fallback_ttl_fixed_ceiling_witness :
    (Json.str "v").truthy = true
    ∧ ((1000 : ℤ) ≠ 0)
    ∧ (memGet (memSet MemStore.empty "k" (.str "v") 1000) "k" 3001).1
        = some (.str "v") := by
  have h := fallback_ttl_fixed_ceiling MemStore.empty "k" (.str "v") 1 1000 3001
    (by decide) (by decide)
  exact ⟨by decide, by decide, h.2.2.1 (by decide)⟩

/-! ## C1: user-scoped invalidation -/

/-- C1: on the fallback serving path `invalidateUserCache(1)` also removes
user 2's analytics entry, because `CacheService.clear` ignores its pattern
there and empties the whole store; the claimed "user 2 still hits" fails. -/
theorem invalidateUser_fallback_wipes_other_user :
    (getCachedAnalytics id okClient
        (setCachedAnalytics id okClient
          (setCachedAnalytics id okClient fallbackState "u1" (.str "X") 1000)
          "u2" (.str "Y") 1000)
        "u2" 1000).1 = some (.str "Y")
    ∧ (getCachedAnalytics id okClient
        (invalidateUserCache okClient
          (setCachedAnalytics id okClient
            (setCachedAnalytics id okClient fallbackState "u1" (.str "X") 1000)
            "u2" (.str "Y") 1000)
          1)
        "u2" 1000).1 = none := by
  exact ⟨rfl, rfl⟩

/-! ## C8: the content namespace under user invalidation -/

theorem globMatch_head_ne (c d : Char) (p k : List Char)
    (hstar : c ≠ '*') (hne : c ≠ d) : globMatch (c :: p) (d :: k) = false := by
  rw [globMatch, if_neg hstar]
  simp [hne]

/-- C8: the three invalidation patterns can only select keys of the stats,
analytics and performance namespaces (a `content:`-prefixed key never
matches them on the networked path), yet on the fallback path the clear
ignores the pattern and does remove a cached content entry. -/
theorem invalidateUser_content_namespace :
    (∀ (uid : ℕ) (digest : String),
        stringGlobMatch ("stats:*" ++ toString uid ++ "*")
          ("content:" ++ digest) = false
        ∧ stringGlobMatch ("analytics:*" ++ toString uid ++ "*")
            ("content:" ++ digest) = false
        ∧ stringGlobMatch ("performance:*" ++ toString uid ++ "*")
            ("content:" ++ digest) = false)
    ∧ (getCachedContent id okClient
          (setCachedContent id okClient fallbackState "cparams" (.str "C") 1000)
          "cparams" 1000).1 = some (.str "C")
    ∧ (getCachedContent id okClient
          (invalidateUserCache okClient
            (setCachedContent id okClient fallbackState "cparams" (.str "C") 1000)
            1)
          "cparams" 1000).1 = none := by
  refine ⟨?_, rfl, rfl⟩
  intro uid digest
  exact ⟨globMatch_head_ne _ _ _ _ (by decide) (by decide),
    globMatch_head_ne _ _ _ _ (by decide) (by decide),
    globMatch_head_ne _ _ _ _ (by decide) (by decide)⟩

/-! ## C4: backend exceptions never escape the gateway -/

/-- C4: whenever the try-block body of a gateway operation raises, the
operation returns normally: `get` yields absent with the state unchanged,
and `set`, `del` and `clear` leave the state unchanged. -/
theorem cache_ops_never_propagate (cl : RedisClient) (s : SvcState) (k : String)
    (v : Json) (ttl now : ℤ) (pat : String) (e : String) :
    (rawGet cl s k now = .error e → svcGet cl s k now = (none, s))
    ∧ (rawSet cl s k v ttl now = .error e → svcSet cl s k v ttl now = s)
    ∧ (rawDel cl s k = .error e → svcDel cl s k = s)
    ∧ (rawClear cl s pat = .error e → svcClear cl s pat = s) := by
  refine ⟨?_, ?_, ?_, ?_⟩ <;> intro h <;>
    simp [svcGet, svcSet, svcDel, svcClear, h]

/-- C4 witness: an always-raising client on the connected path. -/
theorem cache_ops_never_propagate_witness :
    rawGet errClient connectedState "k" 0 = .error "boom"
    ∧ svcGet errClient connectedState "k" 0 = (none, connectedState)
    ∧ svcSet errClient connectedState "k" .null 1 0 = connectedState
    ∧ svcDel errClient connectedState "k" = connectedState
    ∧ svcClear errClient connectedState "p" = connectedState := by
  have h := cache_ops_never_propagate errClient connectedState "k" .null 1 0 "p" "boom"
  exact ⟨rfl, h.1 rfl, h.2.1 rfl, h.2.2.1 rfl, h.2.2.2 rfl⟩

/-! ## C5: the permanent-failure latch -/

theorem onEvent_retry_le (s : ConnState) (e : RedisEvent)
    (h : s.retryAttempts ≤ 3) : (onEvent s e).retryAttempts ≤ 3 := by
  cases e with
  | err =>
      simp only [onEvent]
      split_ifs <;> omega
  | connected => simp [onEvent]
  | ready => simpa [onEvent] using h
  | ended => simpa [onEvent] using h

theorem onEvent_hasClient_false (s : ConnState) (e : RedisEvent)
    (h : s.hasClient = false) : (onEvent s e).hasClient = false := by
  cases e with
  | err =>
      simp only [onEvent]
      split_ifs <;> simp [h]
  | connected => simpa [onEvent] using h
  | ready => simpa [onEvent] using h
  | ended => simpa [onEvent] using h

theorem runEvents_retry_le (evts : List RedisEvent) :
    ∀ s : ConnState, s.retryAttempts ≤ 3 →
      (runEvents s evts).retryAttempts ≤ 3 := by
  induction evts with
  | nil => exact fun s h => h
  | cons e rest ih =>
      intro s h
      rw [runEvents] at *
      simp only [List.foldl_cons]
      exact ih (onEvent s e) (onEvent_retry_le s e h)

theorem runEvents_hasClient_false (evts : List RedisEvent) :
    ∀ s : ConnState, s.hasClient = false →
      (runEvents s evts).hasClient = false := by
  induction evts with
  | nil => exact fun s h => h
  | cons e rest ih =>
      intro s h
      rw [runEvents] at *
      simp only [List.foldl_cons]
      exact ih (onEvent s e) (onEvent_hasClient_false s e h)

theorem ops_ignore_client (c1 c2 : RedisClient) (conn : ConnState)
    (m : Option MemStore) (k : String) (v : Json) (ttl now : ℤ) (pat : String)
    (hc : conn.hasClient = false) :
    svcGet c1 ⟨conn, m⟩ k now = svcGet c2 ⟨conn, m⟩ k now
    ∧ svcSet c1 ⟨conn, m⟩ k v ttl now = svcSet c2 ⟨conn, m⟩ k v ttl now
    ∧ svcDel c1 ⟨conn, m⟩ k = svcDel c2 ⟨conn, m⟩ k
    ∧ svcClear c1 ⟨conn, m⟩ pat = svcClear c2 ⟨conn, m⟩ pat := by
  have hg : usesNetworkedBackend conn = false := by
    simp [usesNetworkedBackend, hc]
  refine ⟨?_, ?_, ?_, ?_⟩ <;>
    simp [svcGet, svcSet, svcDel, svcClear, rawGet, rawSet, rawDel, rawClear, hg]

/-- C5: the retry counter never exceeds 3, an error event that brings it to
3 nulls the client, and once the client is null no sequence of client
events restores it: every subsequent operation ignores the networked
backend (its result does not depend on the client at all) and serves from
the fallback path. -/
theorem retry_latch_permanent (s : ConnState) (evts : List RedisEvent) :
    (s.retryAttempts ≤ 3 → (runEvents s evts).retryAttempts ≤ 3)
    ∧ (3 ≤ (onEvent s .err).retryAttempts → (onEvent s .err).hasClient = false)
    ∧ (s.hasClient = false →
        (runEvents s evts).hasClient = false
        ∧ usesNetworkedBackend (runEvents s evts) = false
        ∧ ∀ (c1 c2 : RedisClient) (m : Option MemStore) (k : String) (v : Json)
            (ttl now : ℤ) (pat : String),
            svcGet c1 ⟨runEvents s evts, m⟩ k now
              = svcGet c2 ⟨runEvents s evts, m⟩ k now
            ∧ svcSet c1 ⟨runEvents s evts, m⟩ k v ttl now
                = svcSet c2 ⟨runEvents s evts, m⟩ k v ttl now
            ∧ svcDel c1 ⟨runEvents s evts, m⟩ k
                = svcDel c2 ⟨runEvents s evts, m⟩ k
            ∧ svcClear c1 ⟨runEvents s evts, m⟩ pat
                = svcClear c2 ⟨runEvents s evts, m⟩ pat) := by
  refine ⟨fun h => runEvents_retry_le evts s h, ?_, ?_⟩
  · intro h3
    simp only [onEvent] at h3 ⊢
    rw [if_pos h3]
  · intro hc
    have hfc := runEvents_hasClient_false evts s hc
    refine ⟨hfc, by simp [usesNetworkedBackend, hfc], ?_⟩
    intro c1 c2 m k v ttl now pat
    exact ops_ignore_client c1 c2 _ m k v ttl now pat hfc

/-- C5 witness: instantiation on a latched state and a later reconnect
attempt by the client library. -/
theorem retry_latch_permanent_witness :
    ((⟨false, false, 3⟩ : ConnState).retryAttempts ≤ 3)
    ∧ ((runEvents ⟨false, false, 3⟩ [.connected, .err, .ready]).retryAttempts ≤ 3)
    ∧ (runEvents ⟨false, false, 3⟩ [.connected, .err, .ready]).hasClient = false
    ∧ svcGet okClient
        ⟨runEvents ⟨false, false, 3⟩ [.connected, .err, .ready], some MemStore.empty⟩
        "k" 0
      = svcGet errClient
          ⟨runEvents ⟨false, false, 3⟩ [.connected, .err, .ready], some MemStore.empty⟩
          "k" 0 := by
  have h := retry_latch_permanent ⟨false, false, 3⟩ [.connected, .err, .ready]
  exact ⟨by norm_num, h.1 (by norm_num), (h.2.2 rfl).1,
    ((h.2.2 rfl).2.2 okClient errClient (some MemStore.empty) "k" .null 0 0 "p").1⟩

end AIContentGen
